import Mathlib

/-!
Shallow embedding of `contrib/github_buildbot.py`: the GitHub webhook bridge
that mirrors a repository locally (`github_sync` / `fetch` / `create_repo`),
extracts change records from a push payload (`process_change`), and delivers
them to the buildmaster over one authenticated PB connection (`connected` /
`addChange`), all driven from the HTTP handler `render_POST`.

Python strings are modeled as Lean `String`; the two regular expressions of
the source are modeled character-exactly, including the CPython `$` rule that
also matches just before one trailing newline.  External effects (filesystem
existence, `commands.getstatusoutput`, the PB remote, `os.chdir`, the logging
stream) are modeled as explicit environments, state records and event traces.
-/

/-- `commit['author']` of the payload: a name and an email address. -/
structure Author where
  name : String
  email : String
deriving DecidableEq, Repr

/-- One raw commit descriptor of the payload's `commits` array. -/
structure Commit where
  id : String
  message : String
  author : Author
  url : String
  added : List String
  modified : List String
  removed : List String
deriving DecidableEq, Repr

/-- The fields of the JSON payload that `render_POST` and `process_change`
read: repository owner/name/private flag, `ref`, `after`, and `commits`. -/
structure Payload where
  owner : String
  repoName : String
  priv : Bool
  ref : String
  after : String
  commits : List Commit
deriving DecidableEq, Repr

/-- Strips a literal pattern from the front of a character list, returning the
remainder when the whole pattern is present (the anchored literal part of a
CPython `re.match`). -/
def stripPrefixChars : List Char → List Char → Option (List Char)
  | [], s => some s
  | _ :: _, [] => none
  | p :: ps, c :: cs => if p = c then stripPrefixChars ps cs else none

/-- CPython `re.match(r"^refs\/heads\/(.+)$", refname)` (line 78): returns the
captured group.  `.` does not match a newline and `$` also matches just before
one trailing newline, so the group is the remainder after `refs/heads/`, minus
one trailing newline, and must be nonempty and newline-free. -/
def branchOfRef (refname : String) : Option String :=
  match stripPrefixChars "refs/heads/".data refname.data with
  | none => none
  | some rest =>
    let core := if rest.getLast? = some '\n' then rest.dropLast else rest
    if core.isEmpty || core.contains '\n' then none else some (String.mk core)

/-- CPython `re.match(r"^0*$", newrev)` (line 85): the string is all zeros,
allowing one trailing newline matched by `$`. -/
def isNullRev (newrev : String) : Bool :=
  let core :=
    if newrev.data.getLast? = some '\n' then newrev.data.dropLast else newrev.data
  core.all (fun c => c = '0')

/-- The change dictionary built for one commit by the loop of `process_change`
(lines 88-101).  `files` is built by three successive `extend` calls, i.e.
plain list concatenation of `added`, `modified` and `removed`. -/
structure Change where
  revision : String
  comments : String
  branch : String
  who : String
  files : List String
  links : List String
deriving DecidableEq, Repr

/-- The body of the `for commit in payload['commits']` loop (lines 88-101). -/
def commitToChange (branch : String) (commit : Commit) : Change :=
  { revision := commit.id
    comments := commit.message
    branch := branch
    who := commit.author.name ++ " <" ++ commit.author.email ++ ">"
    files := commit.added ++ commit.modified ++ commit.removed
    links := [commit.url] }

/-- Python exceptions `process_change` itself raises.  When the branch regex
does not match, line 80 logs "Ignoring refname" but there is no `return`, so
line 82 evaluates `match.group(1)` on `None` and raises `AttributeError`. -/
inductive PyErr
  | attributeError
deriving DecidableEq, Repr

/-- The extraction phase of `process_change` (lines 73-101): branch-ref
filtering, deletion detection against the all-zero revision, and the
per-commit loop building the list of change dictionaries. -/
def process_change_extract (p : Payload) : Except PyErr (List Change) :=
  match branchOfRef p.ref with
  | none => Except.error PyErr.attributeError
  | some branch =>
    if isNullRev p.after then Except.ok []
    else Except.ok (p.commits.map (commitToChange branch))

/-- Observable wire and log events of one delivery attempt. -/
inductive Ev
  | connect (host : String) (port : Nat)
  | login (user pw : String)
  | send (idx : Nat) (rev : String)
  | ack (idx : Nat) (rev : String)
  | close
  | connectFailedLog
deriving DecidableEq, Repr

/-- One run of the `addChange` callback chain (lines 128-151), started by
`connected` on a fresh iterator.  `remote c` is the outcome of the deferred
returned by `remote.callRemote('addChange', c)`: `.ok` is the acknowledgment
that fires the chained `addCallback(self.addChange, ...)`, which only then
sends the next record; `.error` is a remote rejection or transport failure.
Since line 144 installs no errback, a failure skips the callback: no further
record is sent, `loseConnection` is never reached, and the raw remote failure
is the final state of the chain.  `StopIteration` (lines 134-137) closes the
connection and ends the chain successfully.  The `Nat` index is the position
of the next record, threaded through so the trace names records by position. -/
def addChangeRun (remote : Change → Except String Unit) :
    Nat → List Change → List Ev × Except String Unit
  | _, [] => ([Ev.close], Except.ok ())
  | i, c :: rest =>
    match remote c with
    | Except.ok _ =>
      let next := addChangeRun remote (i + 1) rest
      (Ev.send i c.revision :: Ev.ack i c.revision :: next.1, next.2)
    | Except.error d => ([Ev.send i c.revision], Except.error d)

/-- The delivery phase of `process_change` (lines 108-117): one
`PBClientFactory`, one `factory.login` with the fixed change/changepw
credentials, one `reactor.connectTCP`, then `connected` starts the `addChange`
chain.  `loginOk = false` models the login deferred failing (unreachable
master or rejected credentials): the `connectFailed` errback logs and returns
the error, so `connected` never runs and nothing is sent or closed. -/
def deliver (host : String) (port : Nat) (loginOk : Bool)
    (remote : Change → Except String Unit) (changes : List Change) :
    List Ev × Except String Unit :=
  if loginOk then
    let run := addChangeRun remote 0 changes
    (Ev.connect host port :: Ev.login "change" "changepw" :: run.1, run.2)
  else
    ([Ev.connect host port, Ev.login "change" "changepw", Ev.connectFailedLog],
      Except.error "Could not connect to master")

/-- `process_change` in full (lines 64-117): extraction, then — only when the
change list is nonempty — delivery.  An empty list returns at line 106 before
any connection is attempted.  `host`/`port` stand for the already-split
`self.master` configuration (command-line parsing is outside the modeled
core).  An `AttributeError` from the extraction phase propagates to the
caller. -/
def process_change (host : String) (port : Nat) (loginOk : Bool)
    (remote : Change → Except String Unit) (p : Payload) :
    Except PyErr (List Ev × Except String Unit) :=
  match process_change_extract p with
  | Except.error e => Except.error e
  | Except.ok [] => Except.ok ([], Except.ok ())
  | Except.ok changes => Except.ok (deliver host port loginOk remote changes)

/-- External environment of mirror sync: which filesystem paths exist, and the
`(status, output)` pair `commands.getstatusoutput` returns for each shell
command. -/
structure SyncEnv where
  paths : List String
  run : String → Nat × String

/-- Process-global state touched by sync: the current working directory
(`os.chdir`) and the `logging.error` stream. -/
structure ProcState where
  cwd : String
  errLog : List String
deriving DecidableEq, Repr

/-- The ssh-style or anonymous clone URL built by `create_repo`
(lines 184-187). -/
def cloneUrl (priv : Bool) (github_url user repo : String) : String :=
  if priv then "git@" ++ github_url ++ ":" ++ user ++ "/" ++ repo ++ ".git"
  else "git://" ++ github_url ++ "/" ++ user ++ "/" ++ repo ++ ".git"

/-- The mirror directory `tmp + "/" + repo + ".git"` (lines 160 and 188). -/
def repodirOf (tmp repo : String) : String := tmp ++ "/" ++ repo ++ ".git"

/-- The `git clone --mirror <url> <repodir>` command line (line 192). -/
def cloneCmd (priv : Bool) (github_url user repo tmp : String) : String :=
  "git clone --mirror " ++ cloneUrl priv github_url user repo ++ " "
    ++ repodirOf tmp repo

/-- `fetch` (lines 167-177): `os.chdir` into the mirror, run `git fetch`; on
nonzero status, `logging.error` the captured output and raise `RuntimeError`
with a fixed message that does not mention the output. -/
def fetch (env : SyncEnv) (st : ProcState) (repo_dir : String) :
    ProcState × Except String Unit :=
  let st1 : ProcState := { st with cwd := repo_dir }
  let r := env.run "git fetch"
  if r.1 ≠ 0 then
    ({ st1 with errLog := st1.errLog ++ [r.2] },
      Except.error "Unable to fetch remote changes")
  else (st1, Except.ok ())

/-- `create_repo` (lines 180-197): build the clone URL (ssh style when the
repository is private), `os.chdir` into the root directory, run the mirror
clone; on nonzero status, `logging.error` the captured output and raise
`RuntimeError` with a fixed message that does not mention the output. -/
def create_repo (env : SyncEnv) (st : ProcState) (priv : Bool)
    (tmp user repo github_url : String) : ProcState × Except String Unit :=
  let st1 : ProcState := { st with cwd := tmp }
  let r := env.run (cloneCmd priv github_url user repo tmp)
  if r.1 ≠ 0 then
    ({ st1 with errLog := st1.errLog ++ [r.2] },
      Except.error "Unable to initalize bare repository")
  else (st1, Except.ok ())

/-- `github_sync` (lines 153-165): the root-directory precondition raises
before anything else; otherwise `os.chdir` plus `fetch` when the mirror
directory already exists, else `create_repo`.  (The source writes the missing
root check as an early raise; here the two arms of that check are the two
arms of the outer `if`.) -/
def github_sync (env : SyncEnv) (st : ProcState) (priv : Bool)
    (tmp user repo github_url : String) : ProcState × Except String Unit :=
  if env.paths.contains tmp then
    if env.paths.contains (repodirOf tmp repo) then
      fetch env { st with cwd := repodirOf tmp repo } (repodirOf tmp repo)
    else
      create_repo env st priv tmp user repo github_url
  else
    (st, Except.error
      ("temporary directory " ++ tmp ++ " does not exist; please create it"))

/-- Outcome of one `render_POST` call: final process state, whether the
`except Exception` arm logged a traceback, whether `process_change` was
reached, and the wire trace of the delivery it started (empty when none). -/
structure RenderResult where
  state : ProcState
  exceptionLogged : Bool
  processChangeCalled : Bool
  trace : List Ev
deriving DecidableEq, Repr

/-- `render_POST` (lines 43-62): parse the payload, sync the mirror, then
process the change, the whole body inside `try/except Exception`, which logs
the traceback and returns normally.  `parsed` models
`json.loads(request.args['payload'][0])` together with the payload field
accesses of lines 52-55: `.error` when any of those raise.  The function is
total: no exception escapes the handler, and a sync failure skips
`process_change` entirely.  Failures of the asynchronous delivery deferreds
happen after `render_POST` has returned and never reach this handler. -/
def render_POST (env : SyncEnv) (st : ProcState) (host : String) (port : Nat)
    (loginOk : Bool) (remote : Change → Except String Unit)
    (parsed : Except String Payload) (local_dir github : String) :
    RenderResult :=
  match parsed with
  | Except.error _ => ⟨st, true, false, []⟩
  | Except.ok p =>
    match github_sync env st p.priv local_dir p.owner p.repoName github with
    | (st1, Except.error _) => ⟨st1, true, false, []⟩
    | (st1, Except.ok _) =>
      match process_change host port loginOk remote p with
      | Except.error _ => ⟨st1, true, true, []⟩
      | Except.ok tr => ⟨st1, false, true, tr.1⟩

/-- Is the event a TCP connection attempt? -/
def isConnectEv : Ev → Bool
  | Ev.connect _ _ => true
  | _ => false

/-- Is the event a login (authentication) attempt? -/
def isLoginEv : Ev → Bool
  | Ev.login _ _ => true
  | _ => false

/-- Is the event a `loseConnection`? -/
def isCloseEv : Ev → Bool
  | Ev.close => true
  | _ => false

/-- Is the event the transmission of any record? -/
def isSendEv : Ev → Bool
  | Ev.send _ _ => true
  | _ => false

/-- Is the event the transmission of the record at position `j`? -/
def isSendIdx (j : Nat) : Ev → Bool
  | Ev.send i _ => i == j
  | _ => false

/-- Is the event the acknowledgment of the record at position `j`? -/
def isAckIdx (j : Nat) : Ev → Bool
  | Ev.ack i _ => i == j
  | _ => false

/-- Did the deferred chain end successfully? -/
def exceptOk : Except String Unit → Bool
  | Except.ok _ => true
  | Except.error _ => false

/-- The send/ack trace of a fully acknowledged run, starting at position `i`:
each record is sent, then acknowledged, then the next one is sent; the
exhausted iterator closes the connection. -/
def okSeq : Nat → List Change → List Ev
  | _, [] => [Ev.close]
  | i, c :: rest => Ev.send i c.revision :: Ev.ack i c.revision :: okSeq (i + 1) rest

/-- The send/ack trace of the acknowledged records before a rejection. -/
def sendSeq : Nat → List Change → List Ev
  | _, [] => []
  | i, c :: rest => Ev.send i c.revision :: Ev.ack i c.revision :: sendSeq (i + 1) rest

theorem addChangeRun_allOk (remote : Change → Except String Unit)
    (cs : List Change) (hall : ∀ c ∈ cs, remote c = Except.ok ()) (i : Nat) :
    addChangeRun remote i cs = (okSeq i cs, Except.ok ()) := by
  induction cs generalizing i with
  | nil => simp [addChangeRun, okSeq]
  | cons c rest ih =>
    have hc := hall c (List.mem_cons_self c rest)
    have hrest : ∀ x ∈ rest, remote x = Except.ok () := by
      intro x hx
      exact hall x (List.mem_cons_of_mem _ hx)
    simp [addChangeRun, okSeq, hc, ih hrest]

theorem okSeq_events (i : Nat) (cs : List Change) :
    ∀ e ∈ okSeq i cs, isConnectEv e = false ∧ isLoginEv e = false := by
  induction cs generalizing i with
  | nil =>
    intro e he
    simp [okSeq] at he
    subst he
    exact ⟨rfl, rfl⟩
  | cons c rest ih =>
    intro e he
    simp only [okSeq, List.mem_cons] at he
    rcases he with h | h | h
    · subst h; exact ⟨rfl, rfl⟩
    · subst h; exact ⟨rfl, rfl⟩
    · exact ih (i + 1) e h

theorem okSeq_send_count (i : Nat) (cs : List Change) :
    ((okSeq i cs).filter isSendEv).length = cs.length := by
  induction cs generalizing i with
  | nil => simp [okSeq, List.filter, isSendEv]
  | cons c rest ih =>
    simp [okSeq, List.filter, isSendEv, ih (i + 1)]

theorem okSeq_ack_before_send (cs : List Change) :
    ∀ (i j : Nat) (t₁ : List Ev) (e : Ev) (t₂ : List Ev),
      okSeq i cs = t₁ ++ e :: t₂ → isSendIdx (j + 1) e = true → i ≤ j →
      ∃ a ∈ t₁, isAckIdx j a = true := by
  induction cs with
  | nil =>
    intro i j t₁ e t₂ heq hse _
    match t₁, heq with
    | [], heq =>
      simp [okSeq] at heq
      simp [heq.1.symm, isSendIdx] at hse
    | a :: t₁, heq =>
      simp [okSeq] at heq
  | cons c rest ih =>
    intro i j t₁ e t₂ heq hse hij
    match t₁, heq with
    | [], heq =>
      simp only [okSeq, List.nil_append] at heq
      have he : e = Ev.send i c.revision := (List.cons.injEq _ _ _ _ ▸ heq).1.symm
      subst he
      simp [isSendIdx] at hse
      omega
    | [a], heq =>
      simp only [okSeq, List.cons_append, List.nil_append] at heq
      have h1 := (List.cons.injEq _ _ _ _ ▸ heq).2
      have he : e = Ev.ack i c.revision := (List.cons.injEq _ _ _ _ ▸ h1).1.symm
      subst he
      simp [isSendIdx] at hse
    | a :: b :: t₁, heq =>
      simp only [okSeq, List.cons_append] at heq
      have ha : a = Ev.send i c.revision := ((List.cons.injEq _ _ _ _ ▸ heq).1).symm
      have h1 := (List.cons.injEq _ _ _ _ ▸ heq).2
      have hb : b = Ev.ack i c.revision := ((List.cons.injEq _ _ _ _ ▸ h1).1).symm
      have h2 : okSeq (i + 1) rest = t₁ ++ e :: t₂ := (List.cons.injEq _ _ _ _ ▸ h1).2
      by_cases hij1 : i + 1 ≤ j
      · obtain ⟨a1, ha1, hack⟩ := ih (i + 1) j t₁ e t₂ h2 hse hij1
        exact ⟨a1, List.mem_cons_of_mem _ (List.mem_cons_of_mem _ ha1), hack⟩
      · have hji : j = i := by omega
        subst hji
        refine ⟨b, List.mem_cons_of_mem _ (List.mem_cons_self _ _), ?_⟩
        simp [hb, isAckIdx]

theorem addChangeRun_reject (remote : Change → Except String Unit)
    (c : Change) (d : String) (post : List Change) (hc : remote c = Except.error d)
    (pre : List Change) (hpre : ∀ x ∈ pre, remote x = Except.ok ()) (i : Nat) :
    addChangeRun remote i (pre ++ c :: post)
      = (sendSeq i pre ++ [Ev.send (i + pre.length) c.revision], Except.error d) := by
  induction pre generalizing i with
  | nil => simp [addChangeRun, sendSeq, hc]
  | cons x xs ih =>
    have hx := hpre x (List.mem_cons_self x xs)
    have hxs : ∀ y ∈ xs, remote y = Except.ok () := by
      intro y hy
      exact hpre y (List.mem_cons_of_mem _ hy)
    have harith : i + 1 + xs.length = i + (xs.length + 1) := by omega
    simp [addChangeRun, sendSeq, hx, ih hxs, harith]

theorem sendSeq_send_bound (pre : List Change) :
    ∀ (i : Nat), ∀ e ∈ sendSeq i pre, ∀ j, isSendIdx j e = true → j < i + pre.length := by
  induction pre with
  | nil =>
    intro i e he
    simp [sendSeq] at he
  | cons x xs ih =>
    intro i e he j hj
    simp only [sendSeq, List.mem_cons] at he
    rcases he with h | h | h
    · subst h
      simp [isSendIdx] at hj
      simp only [List.length_cons]
      omega
    · subst h
      simp [isSendIdx] at hj
    · have := ih (i + 1) e h j hj
      simp only [List.length_cons]
      omega

theorem addChangeRun_close_count (remote : Change → Except String Unit)
    (cs : List Change) (i : Nat) :
    (((addChangeRun remote i cs).1.filter isCloseEv).length)
      = (if exceptOk (addChangeRun remote i cs).2 then 1 else 0) := by
  induction cs generalizing i with
  | nil => simp [addChangeRun, exceptOk, List.filter, isCloseEv]
  | cons c rest ih =>
    cases hrc : remote c with
    | ok u => simp [addChangeRun, hrc, List.filter, isCloseEv, ih (i + 1)]
    | error d => simp [addChangeRun, hrc, List.filter, isCloseEv, exceptOk]

theorem process_change_of_extract_error (host : String) (port : Nat)
    (loginOk : Bool) (remote : Change → Except String Unit) (p : Payload)
    (e : PyErr) (h : process_change_extract p = Except.error e) :
    process_change host port loginOk remote p = Except.error e := by
  simp [process_change, h]

/-- The spec's end-to-end example commit. -/
def exCommit : Commit :=
  { id := "c1", message := "fix bug", author := { name := "Ann", email := "ann@x.com" },
    url := "http://x/c1", added := ["a.py"], modified := [], removed := [] }

/-- A commit that lists the same path as both added and modified. -/
def dupCommit : Commit :=
  { id := "c9", message := "touch twice", author := { name := "Ann", email := "ann@x.com" },
    url := "http://x/c9", added := ["a.py"], modified := ["a.py"], removed := [] }

/-- A push payload for a tag, not a branch. -/
def tagPayload : Payload :=
  { owner := "o", repoName := "r", priv := false, ref := "refs/tags/v1.0",
    after := "abc123", commits := [exCommit] }

/-- The spec's end-to-end example payload on an accepted branch ref. -/
def mainPayload : Payload :=
  { owner := "o", repoName := "r", priv := false, ref := "refs/heads/main",
    after := "abc123", commits := [exCommit] }

/-- A branch push whose only commit repeats a path across the added and
modified lists. -/
def dupPayload : Payload :=
  { owner := "o", repoName := "r", priv := false, ref := "refs/heads/main",
    after := "abc123", commits := [dupCommit] }

/-- The spec's branch-deletion example payload: all-zero `after`; the commits
array is deliberately nonempty to exercise "regardless of commits content". -/
def delPayload : Payload :=
  { owner := "o", repoName := "r", priv := false, ref := "refs/heads/old",
    after := "0000000000000000000000000000000000000000", commits := [exCommit] }

/-- A coordinator that acknowledges every record. -/
def okRemote : Change → Except String Unit := fun _ => Except.ok ()

/-- A coordinator that rejects every record with the same error detail. -/
def rejRemote : Change → Except String Unit := fun _ => Except.error "boom"

/-- A concrete change record with revision "aaaa". -/
def chgA : Change :=
  { revision := "aaaa", comments := "m1", branch := "main", who := "A <a@x>",
    files := ["f1"], links := ["u1"] }

/-- A concrete change record with revision "bbbb". -/
def chgB : Change :=
  { revision := "bbbb", comments := "m2", branch := "main", who := "B <b@x>",
    files := ["f2"], links := ["u2"] }

/-- C1: the claim says a non-branch `ref` makes `process_change` yield an
empty sequence as a pure filter outcome.  The code instead logs "Ignoring
refname" but, lacking a `return`, evaluates `match.group(1)` on `None` and
raises `AttributeError`: extraction at the tag payload is an error, not an
empty sequence.  The log message and the comment "We only care about regular
heads" show the filter was the intent, so the missing `return` is a code
bug. -/
theorem C1_nonbranch_ref_raises :
    process_change_extract tagPayload = Except.error PyErr.attributeError ∧
    process_change "localhost" 9989 true okRemote tagPayload
      = Except.error PyErr.attributeError := by
  constructor
  · rfl
  · rfl

/-- C5: for a payload whose ref matches `refs/heads/<name>` and whose `after`
is not the all-zero sentinel, extraction yields exactly the commits mapped, in
payload order, to change records; each record's author is
`name ++ " <" ++ email ++ ">"` and its links are the one-element list of the
commit's URL. -/
theorem C5_extraction_order_author_links (p : Payload) (b : String)
    (hb : branchOfRef p.ref = some b) (hz : isNullRev p.after = false) :
    process_change_extract p = Except.ok (p.commits.map (commitToChange b)) ∧
    (p.commits.map (commitToChange b)).length = p.commits.length ∧
    (∀ i : Nat, ∀ hi : i < p.commits.length,
      (p.commits.map (commitToChange b)).get ⟨i, by simpa using hi⟩
        = commitToChange b (p.commits.get ⟨i, hi⟩)) ∧
    (∀ c ∈ p.commits,
      (commitToChange b c).who = c.author.name ++ " <" ++ c.author.email ++ ">"
        ∧ (commitToChange b c).links = [c.url]) := by
  refine ⟨?_, by simp, ?_, ?_⟩
  · simp [process_change_extract, hb, hz]
  · intro i hi
    simp [List.getElem_map]
  · intro c _
    exact ⟨rfl, rfl⟩

/-- Witness for C5 at the spec's end-to-end example payload. -/
theorem C5_witness :
    process_change_extract mainPayload
      = Except.ok [commitToChange "main" exCommit] ∧
    (commitToChange "main" exCommit).who = "Ann <ann@x.com>" ∧
    (commitToChange "main" exCommit).links = ["http://x/c1"] := by
  have h := C5_extraction_order_author_links mainPayload "main" (by rfl) (by rfl)
  refine ⟨?_, ?_, ?_⟩
  · simpa using h.1
  · simpa using (h.2.2.2 exCommit (by simp [mainPayload])).1
  · simpa using (h.2.2.2 exCommit (by simp [mainPayload])).2

/-- C6 counterexample: the claim says `files` is deduplicated by construction,
every touched path appearing exactly once.  The code builds `files` with three
`extend` calls (plain concatenation), so a path listed as both added and
modified appears twice in the extracted record. -/
theorem C6_counterexample :
    process_change_extract dupPayload = Except.ok [commitToChange "main" dupCommit] ∧
    (commitToChange "main" dupCommit).files = ["a.py", "a.py"] ∧
    ((commitToChange "main" dupCommit).files.count "a.py") = 2 := by
  refine ⟨rfl, rfl, rfl⟩

/-- C6 amended: `files` is the plain concatenation of the commit's added,
modified and removed lists; each path occurs once per occurrence across the
three lists, with no deduplication. -/
theorem C6_files_concatenation (b : String) (c : Commit) (path : String) :
    (commitToChange b c).files.count path
      = c.added.count path + c.modified.count path + c.removed.count path := by
  simp [commitToChange, List.count_append]
  omega

/-- C7: a payload whose ref matches the branch pattern and whose `after` is
the all-zero sentinel (a branch deletion) extracts to the empty sequence no
matter what `commits` holds, and `process_change` returns with an empty wire
trace: no connection is ever opened for such an event. -/
theorem C7_deletion_no_connection (host : String) (port : Nat) (loginOk : Bool)
    (remote : Change → Except String Unit) (p : Payload) (b : String)
    (hb : branchOfRef p.ref = some b) (hz : isNullRev p.after = true) :
    process_change_extract p = Except.ok [] ∧
    process_change host port loginOk remote p = Except.ok ([], Except.ok ()) := by
  have hext : process_change_extract p = Except.ok [] := by
    simp [process_change_extract, hb, hz]
  exact ⟨hext, by simp [process_change, hext]⟩

/-- Witness for C7 at the spec's branch-deletion example, with a nonempty
commits array. -/
theorem C7_witness :
    process_change_extract delPayload = Except.ok [] ∧
    process_change "localhost" 9989 true okRemote delPayload
      = Except.ok ([], Except.ok ()) :=
  C7_deletion_no_connection "localhost" 9989 true okRemote delPayload "old"
    (by rfl) (by rfl)

/-- C2: delivering a nonempty batch whose records are all acknowledged opens
exactly one connection, performs exactly one authentication, transmits every
record exactly once, and is strictly sequential: any transmission of the
record at position `j + 1` in the wire trace is preceded by the acknowledgment
of the record at position `j`. -/
theorem C2_sequential_delivery (host : String) (port : Nat)
    (remote : Change → Except String Unit) (changes : List Change)
    (_hne : changes ≠ [])
    (hall : ∀ c ∈ changes, remote c = Except.ok ()) :
    ((deliver host port true remote changes).1.filter isConnectEv).length = 1 ∧
    ((deliver host port true remote changes).1.filter isLoginEv).length = 1 ∧
    ((deliver host port true remote changes).1.filter isSendEv).length
      = changes.length ∧
    (∀ (j : Nat) (t₁ : List Ev) (e : Ev) (t₂ : List Ev),
      (deliver host port true remote changes).1 = t₁ ++ e :: t₂ →
      isSendIdx (j + 1) e = true → ∃ a ∈ t₁, isAckIdx j a = true) := by
  have hrun := addChangeRun_allOk remote changes hall 0
  have htr : (deliver host port true remote changes).1
      = Ev.connect host port :: Ev.login "change" "changepw" :: okSeq 0 changes := by
    simp [deliver, hrun]
  refine ⟨?_, ?_, ?_, ?_⟩
  · rw [htr]
    have h0 : (okSeq 0 changes).filter isConnectEv = [] := by
      rw [List.filter_eq_nil_iff]
      intro a ha
      simp [(okSeq_events 0 changes a ha).1]
    simp [List.filter, isConnectEv, isLoginEv, h0]
  · rw [htr]
    have h0 : (okSeq 0 changes).filter isLoginEv = [] := by
      rw [List.filter_eq_nil_iff]
      intro a ha
      simp [(okSeq_events 0 changes a ha).2]
    simp [List.filter, isConnectEv, isLoginEv, h0]
  · rw [htr]
    simp [List.filter, isSendEv, okSeq_send_count 0 changes]
  · intro j t₁ e t₂ heq hse
    rw [htr] at heq
    match t₁, heq with
    | [], heq =>
      have he : e = Ev.connect host port := (List.cons.injEq _ _ _ _ ▸ heq).1.symm
      subst he
      simp [isSendIdx] at hse
    | [a], heq =>
      have h1 := (List.cons.injEq _ _ _ _ ▸ heq).2
      have he : e = Ev.login "change" "changepw" :=
        (List.cons.injEq _ _ _ _ ▸ h1).1.symm
      subst he
      simp [isSendIdx] at hse
    | a :: b :: t₁, heq =>
      have h1 := (List.cons.injEq _ _ _ _ ▸ heq).2
      have h2 : okSeq 0 changes = t₁ ++ e :: t₂ := (List.cons.injEq _ _ _ _ ▸ h1).2
      obtain ⟨x, hx, hack⟩ :=
        okSeq_ack_before_send changes 0 j t₁ e t₂ h2 hse (Nat.zero_le j)
      exact ⟨x, List.mem_cons_of_mem _ (List.mem_cons_of_mem _ hx), hack⟩

/-- Witness for C2: one-record batch against an always-acknowledging
coordinator opens exactly one connection. -/
theorem C2_witness :
    ((deliver "localhost" 9989 true okRemote [chgA]).1.filter isConnectEv).length
      = 1 :=
  (C2_sequential_delivery "localhost" 9989 okRemote [chgA] (by simp)
    (fun _ _ => rfl)).1

/-- C3 counterexample: the claim says the connection is closed exactly once on
every exit path, including a mid-batch remote rejection.  With a coordinator
that rejects the first record of a two-record batch, the wire trace contains
no close at all: `addChange` installs no errback, so `loseConnection` is only
ever reached through `StopIteration`. -/
theorem C3_counterexample :
    ((deliver "localhost" 9989 true rejRemote [chgA, chgB]).1.filter
        isCloseEv).length = 0 ∧
    (deliver "localhost" 9989 true rejRemote [chgA, chgB]).2
      = Except.error "boom" := by
  exact ⟨rfl, rfl⟩

/-- C3 amended: the connection is closed exactly once when the delivery chain
runs to successful completion (every record acknowledged, iterator
exhausted), and is never closed by the client when the chain aborts — on
login failure or on a mid-batch remote rejection or transport failure. -/
theorem C3_close_only_on_completion (host : String) (port : Nat)
    (loginOk : Bool) (remote : Change → Except String Unit)
    (changes : List Change) :
    ((deliver host port loginOk remote changes).1.filter isCloseEv).length
      = if exceptOk (deliver host port loginOk remote changes).2 then 1
        else 0 := by
  cases loginOk with
  | false => simp [deliver, exceptOk, List.filter, isCloseEv]
  | true =>
    simp only [deliver, if_pos trivial, List.filter, isCloseEv]
    exact addChangeRun_close_count remote changes 0

/-- C4 counterexample: the claim says the error reported for a rejected batch
identifies the failing record.  Two batches differing in the failing record's
revision produce identical batch outcomes — the raw remote detail with no
record identity attached — so the reported error cannot identify record k. -/
theorem C4_counterexample :
    (deliver "localhost" 9989 true rejRemote [chgA]).2
      = (deliver "localhost" 9989 true rejRemote [chgB]).2 ∧
    chgA.revision ≠ chgB.revision ∧
    (deliver "localhost" 9989 true rejRemote [chgA]).2 = Except.error "boom" := by
  refine ⟨rfl, by decide, rfl⟩

/-- C4 amended: if the records before position `pre.length` are all
acknowledged and the record at position `pre.length` is rejected with detail
`d`, then no record after that position is ever transmitted and the batch's
outcome is exactly the remote error detail `d` — which carries no identity of
the failing record. -/
theorem C4_rejection_stops_batch (host : String) (port : Nat)
    (remote : Change → Except String Unit) (pre post : List Change)
    (c : Change) (d : String)
    (hpre : ∀ x ∈ pre, remote x = Except.ok ())
    (hc : remote c = Except.error d) :
    (deliver host port true remote (pre ++ c :: post)).2 = Except.error d ∧
    ∀ e ∈ (deliver host port true remote (pre ++ c :: post)).1,
      ∀ j, isSendIdx j e = true → j ≤ pre.length := by
  have hrun := addChangeRun_reject remote c d post hc pre hpre 0
  constructor
  · simp [deliver, hrun]
  · intro e he j hj
    simp only [deliver, if_pos trivial, hrun, List.mem_cons, List.mem_append,
      List.mem_singleton] at he
    rcases he with h | h | h | h | h
    · subst h
      simp [isSendIdx] at hj
    · subst h
      simp [isSendIdx] at hj
    · have := sendSeq_send_bound pre 0 e h j hj
      omega
    · subst h
      simp [isSendIdx] at hj
      omega
    · simp at h

/-- Witness for C4: a batch whose first record is rejected ends with the raw
remote detail as its outcome. -/
theorem C4_witness :
    (deliver "localhost" 9989 true rejRemote ([] ++ chgA :: [chgB])).2
      = Except.error "boom" :=
  (C4_rejection_stops_batch "localhost" 9989 rejRemote [] [chgB] chgA "boom"
    (by simp) rfl).1

theorem fetch_fail (env : SyncEnv) (st : ProcState) (repo_dir : String)
    (h : (env.run "git fetch").1 ≠ 0) :
    fetch env st repo_dir
      = ({ cwd := repo_dir, errLog := st.errLog ++ [(env.run "git fetch").2] },
         Except.error "Unable to fetch remote changes") := by
  simp only [fetch]
  rw [if_pos h]

theorem create_repo_fail (env : SyncEnv) (st : ProcState) (priv : Bool)
    (tmp user repo gh : String)
    (h : (env.run (cloneCmd priv gh user repo tmp)).1 ≠ 0) :
    create_repo env st priv tmp user repo gh
      = ({ cwd := tmp,
           errLog := st.errLog ++ [(env.run (cloneCmd priv gh user repo tmp)).2] },
         Except.error "Unable to initalize bare repository") := by
  simp only [create_repo]
  rw [if_pos h]

theorem fetch_cwd (env : SyncEnv) (st : ProcState) (repo_dir : String) :
    (fetch env st repo_dir).1.cwd = repo_dir := by
  by_cases h : (env.run "git fetch").1 ≠ 0
  · rw [fetch_fail env st repo_dir h]
  · simp only [fetch]
    rw [if_neg h]

theorem create_repo_cwd (env : SyncEnv) (st : ProcState) (priv : Bool)
    (tmp user repo gh : String) :
    (create_repo env st priv tmp user repo gh).1.cwd = tmp := by
  by_cases h : (env.run (cloneCmd priv gh user repo tmp)).1 ≠ 0
  · rw [create_repo_fail env st priv tmp user repo gh h]
  · simp only [create_repo]
    rw [if_neg h]

/-- Initial process state for the concrete runs below. -/
def st0 : ProcState := { cwd := "/", errLog := [] }

/-- Environment where the mirror exists and every command fails with output A. -/
def envFA : SyncEnv :=
  { paths := ["/tmp", "/tmp/r.git"], run := fun _ => (1, "fatal: remote error A") }

/-- Environment identical to `envFA` except the captured output differs. -/
def envFB : SyncEnv :=
  { paths := ["/tmp", "/tmp/r.git"], run := fun _ => (1, "fatal: remote error B") }

/-- Environment whose root directory does not exist. -/
def envMissing : SyncEnv := { paths := [], run := fun _ => (0, "") }

/-- Environment where the root exists but the mirror does not, and every
command succeeds. -/
def envClone : SyncEnv := { paths := ["/tmp"], run := fun _ => (0, "") }

/-- C8 counterexample: the claim says the failure's message includes the
external tool's captured output.  Two environments whose fetch commands fail
with different captured outputs produce the same fixed failure message, so
the message cannot include the output (the output goes to the error log
instead). -/
theorem C8_counterexample :
    (github_sync envFA st0 false "/tmp" "u" "r" "github.com").2
      = Except.error "Unable to fetch remote changes" ∧
    (github_sync envFB st0 false "/tmp" "u" "r" "github.com").2
      = Except.error "Unable to fetch remote changes" ∧
    (envFA.run "git fetch").2 ≠ (envFB.run "git fetch").2 := by
  refine ⟨rfl, rfl, by decide⟩

/-- C8 amended: on nonzero exit status sync fails with an operation-specific
fixed message — "Unable to fetch remote changes" for the fetch path and
"Unable to initalize bare repository" for the clone path — and the external
tool's captured output is appended to the error log, not to the failure's
message. -/
theorem C8_failure_reporting (env : SyncEnv) (st : ProcState) (priv : Bool)
    (tmp user repo gh : String)
    (hroot : env.paths.contains tmp = true) :
    (env.paths.contains (repodirOf tmp repo) = true →
      (env.run "git fetch").1 ≠ 0 →
      github_sync env st priv tmp user repo gh
        = ({ cwd := repodirOf tmp repo,
             errLog := st.errLog ++ [(env.run "git fetch").2] },
           Except.error "Unable to fetch remote changes")) ∧
    (env.paths.contains (repodirOf tmp repo) = false →
      (env.run (cloneCmd priv gh user repo tmp)).1 ≠ 0 →
      github_sync env st priv tmp user repo gh
        = ({ cwd := tmp,
             errLog := st.errLog ++ [(env.run (cloneCmd priv gh user repo tmp)).2] },
           Except.error "Unable to initalize bare repository")) := by
  constructor
  · intro h1 h2
    unfold github_sync
    rw [if_pos hroot, if_pos h1]
    exact fetch_fail env { st with cwd := repodirOf tmp repo }
      (repodirOf tmp repo) h2
  · intro h1 h2
    unfold github_sync
    rw [if_pos hroot, if_neg (by simpa using h1)]
    exact create_repo_fail env st priv tmp user repo gh h2

/-- Witness for C8: a failing fetch yields the fixed message and logs the
captured output. -/
theorem C8_witness :
    github_sync envFA st0 false "/tmp" "u" "r" "github.com"
      = ({ cwd := repodirOf "/tmp" "r",
           errLog := st0.errLog ++ [(envFA.run "git fetch").2] },
         Except.error "Unable to fetch remote changes") :=
  (C8_failure_reporting envFA st0 false "/tmp" "u" "r" "github.com" rfl).1
    rfl (by decide)

/-- C9: the `try/except Exception` of `render_POST` converts every leaf
failure into a logged diagnostic and the handler always returns normally: a
payload-parse failure or a mirror-sync failure is logged and skips
`process_change` entirely (no extraction, no delivery, empty wire trace), and
an extraction failure (the AttributeError of C1) is logged with an empty wire
trace.  The model's totality is the embedded catch-all: the result type has
no escaping-exception outcome. -/
theorem C9_boundary_swallows (env : SyncEnv) (st : ProcState) (host : String)
    (port : Nat) (loginOk : Bool) (remote : Change → Except String Unit)
    (p : Payload) (dir gh : String) :
    (∀ (st1 : ProcState) (e : String),
      github_sync env st p.priv dir p.owner p.repoName gh = (st1, Except.error e) →
      render_POST env st host port loginOk remote (Except.ok p) dir gh
        = ⟨st1, true, false, []⟩) ∧
    (∀ (st1 : ProcState) (err : PyErr),
      github_sync env st p.priv dir p.owner p.repoName gh = (st1, Except.ok ()) →
      process_change_extract p = Except.error err →
      render_POST env st host port loginOk remote (Except.ok p) dir gh
        = ⟨st1, true, true, []⟩) ∧
    (∀ s : String,
      render_POST env st host port loginOk remote (Except.error s) dir gh
        = ⟨st, true, false, []⟩) := by
  refine ⟨?_, ?_, ?_⟩
  · intro st1 e h
    simp [render_POST, h]
  · intro st1 err hs he
    simp [render_POST, hs,
      process_change_of_extract_error host port loginOk remote p err he]
  · intro s
    rfl

/-- Witness for C9: a missing root directory makes sync fail; the request is
answered with a logged error and `process_change` is never reached. -/
theorem C9_witness :
    render_POST envMissing st0 "localhost" 9989 true okRemote
        (Except.ok mainPayload) "/tmp" "github.com"
      = ⟨st0, true, false, []⟩ :=
  (C9_boundary_swallows envMissing st0 "localhost" 9989 true okRemote
      mainPayload "/tmp" "github.com").1 st0
    "temporary directory /tmp does not exist; please create it" rfl

/-- C10: once past the root-directory check, every `github_sync` run — clone
or fetch, success or failure — leaves the process-global working directory
changed by `os.chdir`: afterwards it equals the mirror directory on the fetch
path and the root directory on the clone path, independently of what it was
before the call and of the external command's outcome; no path restores it. -/
theorem C10_cwd_global_effect (env : SyncEnv) (st : ProcState) (priv : Bool)
    (tmp user repo gh : String)
    (hroot : env.paths.contains tmp = true) :
    (github_sync env st priv tmp user repo gh).1.cwd
      = if env.paths.contains (repodirOf tmp repo) then repodirOf tmp repo
        else tmp := by
  unfold github_sync
  rw [if_pos hroot]
  by_cases h : env.paths.contains (repodirOf tmp repo) = true
  · rw [if_pos h, if_pos h, fetch_cwd]
  · rw [if_neg h, if_neg h, create_repo_cwd]

/-- Witness for C10: with an existing root and no mirror, sync takes the clone
path and leaves the working directory at the root directory. -/
theorem C10_witness :
    (github_sync envClone st0 false "/tmp" "u" "r" "github.com").1.cwd
      = "/tmp" :=
  C10_cwd_global_effect envClone st0 false "/tmp" "u" "r" "github.com" rfl
